import Mathlib

/-!
Shallow embedding of the keyframe transition engine of `ruensh`
(`src/svg/animations.rs` and `src/svg/transitions.rs`).

Modelling conventions:
* `f32` values (progress, offsets, durations, animated scalars) are embedded
  as exact rationals `ℚ`; the source arithmetic on them is translated
  literally (decimal literals are the exact rationals the source writes).
* The monotonic clock (`std::time::Instant`) is embedded by passing the
  current time `now : ℚ` explicitly to every operation that reads the clock;
  `Instant::elapsed` saturates at zero, embedded as `max (now - start) 0`.
* A Rust panic (empty-keyframe panic, debug-mode `usize` underflow of
  `max_loops - 1`, out-of-bounds indexing) is embedded as `Option.none`.
* The transcendental interior of the `Elastic` easing curve,
  `-(2^(10 (t-1)) * sin ((t - 1 - s) * 2π / p))`, is not representable in
  computable exact arithmetic; it is taken as an explicit function
  parameter `E : ℚ → ℚ`.  The source only reaches it for `t ∉ {0, 1}`, and
  every theorem below holds for all values of this parameter.
-/

/-- Embedding of `f32::clamp(0.0, 1.0)`. -/
def clamp01 (t : ℚ) : ℚ := min (max t 0) 1

/-- Easing functions (`Easing` in `src/svg/animations.rs`). -/
inductive Easing where
  | Linear
  | EaseIn
  | EaseOut
  | EaseInOut
  | Bounce
  | Elastic
  deriving DecidableEq, Repr

/-- Embedding of `Easing::apply` (`src/svg/animations.rs`, lines 52-90).
The input is clamped to `[0, 1]` first, exactly as in the source.  `E` is
the abstract elastic interior curve (see the module docstring); the source
returns `t` unchanged at `t = 0` and `t = 1` without evaluating it. -/
def Easing.apply (E : ℚ → ℚ) : Easing → ℚ → ℚ
  | .Linear, t => clamp01 t
  | .EaseIn, t => let t := clamp01 t; t * t
  | .EaseOut, t => let t := clamp01 t; t * (2 - t)
  | .EaseInOut, t =>
    let t := clamp01 t
    if t < 0.5 then 2 * t * t else -1 + (4 - 2 * t) * t
  | .Bounce, t =>
    let t := clamp01 t
    if t < 1 / 2.75 then 7.5625 * t * t
    else if t < 2 / 2.75 then
      let t := t - 1.5 / 2.75
      7.5625 * t * t + 0.75
    else if t < 2.5 / 2.75 then
      let t := t - 2.25 / 2.75
      7.5625 * t * t + 0.9375
    else
      let t := t - 2.625 / 2.75
      7.5625 * t * t + 0.984375
  | .Elastic, t =>
    let t := clamp01 t
    if t = 0 ∨ t = 1 then t else E t

/-- Keyframe for the animation timeline (`Keyframe<T>`). -/
structure Keyframe (T : Type) where
  offset : ℚ
  value : T
  easing : Easing
  deriving DecidableEq, Repr

/-- Embedding of `Keyframe::new`: the offset is clamped to `[0, 1]` and the
easing defaults to `EaseInOut`. -/
def Keyframe.new (offset : ℚ) (value : T) : Keyframe T :=
  { offset := clamp01 offset, value := value, easing := Easing.EaseInOut }

/-- Embedding of `Keyframe::with_easing`. -/
def Keyframe.with_easing (kf : Keyframe T) (easing : Easing) : Keyframe T :=
  { kf with easing := easing }

/-- The `Interpolate` trait: values that can be animated. -/
class Interpolate (T : Type) where
  lerp : T → T → ℚ → T

/-- The `impl Interpolate for f32`: `self + (other - self) * t`. -/
instance : Interpolate ℚ := ⟨fun a b t => a + (b - a) * t⟩

/-- Transition play state (`TransitionState`). -/
inductive TransitionState where
  | Idle
  | Running
  | Complete
  | Paused
  deriving DecidableEq, Repr

/-- The keyframe-based transition animator (`Transition<T>`). -/
structure Transition (T : Type) where
  keyframes : List (Keyframe T)
  duration : ℚ
  start_time : Option ℚ
  state : TransitionState
  current_value : Option T
  loop_count : Option ℕ
  current_loop : ℕ
  reverse_on_complete : Bool
  deriving DecidableEq, Repr

/-- Embedding of `Transition::new` (`transitions.rs`, lines 102-113): every
field other than the supplied duration and keyframes is defaulted; no
validation of any kind is performed on the duration. -/
def Transition.new (duration : ℚ) (keyframes : List (Keyframe T)) : Transition T :=
  { keyframes := keyframes
    duration := duration
    start_time := none
    state := TransitionState.Idle
    current_value := none
    loop_count := none
    current_loop := 0
    reverse_on_complete := false }

/-- Embedding of `Transition::from_to` (lines 116-124). -/
def Transition.from_to (duration : ℚ) (a b : T) (easing : Easing) : Transition T :=
  Transition.new duration
    [(Keyframe.new 0 a).with_easing easing, Keyframe.new 1 b]

/-- Embedding of `Transition::with_loop` (lines 127-130); `none` = infinite. -/
def Transition.with_loop (tr : Transition T) (count : Option ℕ) : Transition T :=
  { tr with loop_count := count }

/-- Embedding of `Transition::with_reverse` (lines 133-136). -/
def Transition.with_reverse (tr : Transition T) (reverse : Bool) : Transition T :=
  { tr with reverse_on_complete := reverse }

/-- Embedding of `Transition::start` (lines 139-143); `now` is the clock
read that the source performs with `Instant::now()`. -/
def Transition.start (tr : Transition T) (now : ℚ) : Transition T :=
  { tr with start_time := some now
            state := TransitionState.Running
            current_loop := 0 }

/-- Embedding of `Transition::pause` (lines 146-150). -/
def Transition.pause (tr : Transition T) : Transition T :=
  if tr.state = TransitionState.Running then
    { tr with state := TransitionState.Paused }
  else tr

/-- Embedding of `Transition::resume` (lines 153-157). -/
def Transition.resume (tr : Transition T) : Transition T :=
  if tr.state = TransitionState.Paused then
    { tr with state := TransitionState.Running }
  else tr

/-- Embedding of `Transition::reset` (lines 160-165). -/
def Transition.reset (tr : Transition T) : Transition T :=
  { tr with start_time := none
            state := TransitionState.Idle
            current_value := none
            current_loop := 0 }

/-- Embedding of `Transition::is_running` (lines 173-175). -/
def Transition.is_running (tr : Transition T) : Bool :=
  tr.state = TransitionState.Running

/-- The zero-width-segment guard of `interpolate_at` (lines 249-254): local
progress is `(p - start) / (end - start)` when the segment has positive
width and `0` otherwise. -/
def localProgress (startOff endOff p : ℚ) : ℚ :=
  if endOff - startOff > 0 then (p - startOff) / (endOff - startOff) else 0

/-- The keyframe scan of `interpolate_at` (lines 228-239): walk the list
with running index `i`, recording in `s` the last index whose offset is
`≤ progress`, and breaking with end index `i` at the first offset
`≥ progress`; if no break happens, the initial end index `e` survives. -/
def scanIndices : List (Keyframe T) → ℚ → ℕ → ℕ → ℕ → ℕ × ℕ
  | [], _, _, s, e => (s, e)
  | kf :: rest, p, i, s, e =>
    let s' := if kf.offset ≤ p then i else s
    if kf.offset ≥ p then (s', i)
    else scanIndices rest p (i + 1) s' e

/-- Embedding of `Transition::interpolate_at` (lines 218-261).  `none`
models the `panic!` on an empty keyframe list (and, defensively, an
out-of-bounds index, which the totality lemma below shows unreachable). -/
def Transition.interpolate_at [Interpolate T] (E : ℚ → ℚ)
    (tr : Transition T) (progress : ℚ) : Option T :=
  match tr.keyframes with
  | [] => none
  | [kf] => some kf.value
  | _ :: _ :: _ =>
    let se := scanIndices tr.keyframes progress 0 0 1
    if se.1 = se.2 then (tr.keyframes.get? se.1).map (·.value)
    else
      match tr.keyframes.get? se.1, tr.keyframes.get? se.2 with
      | some skf, some ekf =>
        let lp := localProgress skf.offset ekf.offset progress
        some (Interpolate.lerp skf.value ekf.value (Easing.apply E skf.easing lp))
      | _, _ => none

/-- Embedding of `Transition::value_at` (lines 264-266). -/
def Transition.value_at [Interpolate T] (E : ℚ → ℚ)
    (tr : Transition T) (progress : ℚ) : Option T :=
  tr.interpolate_at E (clamp01 progress)

/-- The loop-handling block of `Transition::update` (lines 189-205),
returning the new state, start time, loop index and progress.  In the
finite-loop branch the source computes `max_loops - 1` on a `usize`; for
`max_loops = 0` that subtraction underflows (a panic in a debug build),
embedded as `none`. -/
def loopStep (tr : Transition T) (now progress : ℚ) :
    Option (TransitionState × Option ℚ × ℕ × ℚ) :=
  if progress ≥ 1 then
    match tr.loop_count with
    | some maxLoops =>
      if maxLoops = 0 then none
      else if tr.current_loop ≥ maxLoops - 1 then
        some (TransitionState.Complete, tr.start_time, tr.current_loop, 1)
      else
        some (TransitionState.Running, some now, tr.current_loop + 1, 0)
    | none => some (TransitionState.Running, some now, tr.current_loop, 0)
  else some (TransitionState.Running, tr.start_time, tr.current_loop, progress)

/-- Embedding of `Transition::update` (lines 178-215).  The result pairs the
mutated transition with the `Option<&T>` the source returns; the outer
`Option` models a panic.  When the state is not `Running` the source
returns the cached value untouched; when `start_time` is `None` the `?`
operator returns `None` without mutating anything. -/
def Transition.update [Interpolate T] (E : ℚ → ℚ)
    (tr : Transition T) (now : ℚ) : Option (Transition T × Option T) :=
  if tr.state = TransitionState.Running then
    match tr.start_time with
    | none => some (tr, none)
    | some start =>
      let elapsed := max (now - start) 0
      let progress := elapsed / tr.duration
      match loopStep tr now progress with
      | none => none
      | some (st, stime, li, prog) =>
        let prog := if tr.reverse_on_complete ∧ li % 2 = 1 then 1 - prog else prog
        match tr.interpolate_at E prog with
        | none => none
        | some v =>
          some ({ tr with state := st
                          start_time := stime
                          current_loop := li
                          current_value := some v }, some v)
  else some (tr, tr.current_value)

/-- Embedding of `TransitionPresets::pulse` (lines 306-316): a three-point
min → max → min timeline with an infinite loop budget. -/
def TransitionPresets.pulse (duration lo hi : ℚ) : Transition ℚ :=
  (Transition.new duration
    [(Keyframe.new 0 lo).with_easing Easing.EaseInOut,
     (Keyframe.new 0.5 hi).with_easing Easing.EaseInOut,
     Keyframe.new 1 lo]).with_loop none

/-- The transition registry (`TransitionManager`, lines 370-416).  The
source stores `Vec<(String, Box<dyn TransitionTrait>)>`; the type-erased
trait object only forwards `update` (returning `is_running()`) and `reset`,
both uniform in the value type, so the registry is embedded over one value
type `T`. -/
structure TransitionManager (T : Type) where
  transitions : List (String × Transition T)
  deriving DecidableEq, Repr

/-- Embedding of `TransitionManager::new`. -/
def TransitionManager.new : TransitionManager T := ⟨[]⟩

/-- Embedding of `TransitionManager::add` (lines 397-401): the transition
is started and the entry pushed at the back of the vector. -/
def TransitionManager.add (m : TransitionManager T) (name : String)
    (tr : Transition T) (now : ℚ) : TransitionManager T :=
  ⟨m.transitions ++ [(name, tr.start now)]⟩

/-- The `retain_mut` loop of `TransitionManager::update_all` (line 404):
each entry is updated in order via the trait object, which returns
`is_running()` after the update, and kept exactly when that is `true`.  A
panic in one entry (`none`) aborts the pass, as in the source. -/
def retainUpdate [Interpolate T] (E : ℚ → ℚ) :
    List (String × Transition T) → ℚ → Option (List (String × Transition T))
  | [], _ => some []
  | (n, tr) :: rest, now =>
    match Transition.update E tr now with
    | none => none
    | some (tr', _) =>
      match retainUpdate E rest now with
      | none => none
      | some rest' =>
        if tr'.is_running then some ((n, tr') :: rest') else some rest'

/-- Embedding of `TransitionManager::update_all` (lines 403-405). -/
def TransitionManager.update_all [Interpolate T] (E : ℚ → ℚ)
    (m : TransitionManager T) (now : ℚ) : Option (TransitionManager T) :=
  (retainUpdate E m.transitions now).map TransitionManager.mk

/-- The update phase of `update_all` on its own: each entry updated in
order, none removed.  Used to state what `retainUpdate` retains. -/
def updateEntries [Interpolate T] (E : ℚ → ℚ) :
    List (String × Transition T) → ℚ → Option (List (String × Transition T))
  | [], _ => some []
  | (n, tr) :: rest, now =>
    match Transition.update E tr now with
    | none => none
    | some (tr', _) =>
      match updateEntries E rest now with
      | none => none
      | some rest' => some ((n, tr') :: rest')

/-- Embedding of `TransitionManager::reset` (lines 407-411): resets the
first entry whose name matches (`iter_mut().find`), if any. -/
def resetFirst : List (String × Transition T) → String → List (String × Transition T)
  | [], _ => []
  | (n, tr) :: rest, name =>
    if n = name then (n, tr.reset) :: rest else (n, tr) :: resetFirst rest name

/-- Embedding of `TransitionManager::reset`. -/
def TransitionManager.reset (m : TransitionManager T) (name : String) :
    TransitionManager T :=
  ⟨resetFirst m.transitions name⟩

/-- Embedding of `TransitionManager::clear` (lines 413-415). -/
def TransitionManager.clear (_ : TransitionManager T) : TransitionManager T := ⟨[]⟩

/-- One externally invocable play-state operation on a transition.  The
clock read of an `update` call is its `now` argument. -/
inductive TransOp where
  | update (now : ℚ)
  | pause
  | resume
  deriving DecidableEq, Repr

/-- Apply one operation; `none` propagates a panic from `update`. -/
def applyOp [Interpolate T] (E : ℚ → ℚ) (tr : Transition T) :
    TransOp → Option (Transition T)
  | .update now => (Transition.update E tr now).map Prod.fst
  | .pause => some tr.pause
  | .resume => some tr.resume

/-- Apply a sequence of operations left to right. -/
def applyOps [Interpolate T] (E : ℚ → ℚ) :
    Transition T → List TransOp → Option (Transition T)
  | tr, [] => some tr
  | tr, op :: rest => (applyOp E tr op).bind (fun tr' => applyOps E tr' rest)

/-- Arbitrary concrete instantiation of the abstract elastic interior
parameter, used only to evaluate definitions at concrete inputs; no theorem
depends on its values. -/
def elasticZero : ℚ → ℚ := fun _ => 0

/-- A concrete single-segment transition used for concrete evaluations. -/
def demoTransition : Transition ℚ :=
  Transition.new 1 [(Keyframe.new 0 0).with_easing Easing.Linear, Keyframe.new 1 100]

/-- The scan of `interpolate_at` only ever produces indices below the list
length, provided the initial candidates are and `i` addresses the suffix. -/
theorem scanIndices_bounds (l : List (Keyframe T)) (p : ℚ) :
    ∀ (i s e n : ℕ), s < n → e < n → i + l.length = n →
      (scanIndices l p i s e).1 < n ∧ (scanIndices l p i s e).2 < n := by
  induction l with
  | nil =>
    intro i s e n hs he _
    exact ⟨hs, he⟩
  | cons kf rest ih =>
    intro i s e n hs he hlen
    have hi : i < n := by simp at hlen; omega
    have hs' : (if kf.offset ≤ p then i else s) < n := by
      split <;> [exact hi; exact hs]
    rw [scanIndices]
    split
    · exact ⟨hs', hi⟩
    · exact ih (i + 1) _ e n hs' he (by simp at hlen ⊢; omega)

/-- Timeline lookup is total on every non-empty keyframe list: the panic
branch and the out-of-bounds branches are unreachable. -/
theorem interpolate_at_isSome [Interpolate T] (E : ℚ → ℚ)
    (tr : Transition T) (p : ℚ) (h : tr.keyframes ≠ []) :
    (tr.interpolate_at E p).isSome := by
  rw [Transition.interpolate_at]
  split
  · exact absurd ‹tr.keyframes = []› h
  · simp
  · rename_i a b rest heq
    have hlen : tr.keyframes.length = rest.length + 2 := by rw [heq]; simp
    have hb := scanIndices_bounds tr.keyframes p 0 0 1 tr.keyframes.length
      (by omega) (by omega) (by omega)
    obtain ⟨skf, hskf⟩ : ∃ skf, tr.keyframes.get? (scanIndices tr.keyframes p 0 0 1).1 = some skf := by
      rw [List.get?_eq_get hb.1]; exact ⟨_, rfl⟩
    obtain ⟨ekf, hekf⟩ : ∃ ekf, tr.keyframes.get? (scanIndices tr.keyframes p 0 0 1).2 = some ekf := by
      rw [List.get?_eq_get hb.2]; exact ⟨_, rfl⟩
    dsimp only
    split
    · rw [hskf]; simp
    · rw [hskf, hekf]; simp

/-- Characterization of the loop-handling block: a successful step either
keeps the state `Running`, or moves to `Complete`, the latter only under a
finite nonzero loop budget. -/
theorem loopStep_state (tr : Transition T) (now p : ℚ)
    (st : TransitionState) (stime : Option ℚ) (li : ℕ) (prog : ℚ)
    (h : loopStep tr now p = some (st, stime, li, prog)) :
    st = TransitionState.Running ∨
      (st = TransitionState.Complete ∧ ∃ m, tr.loop_count = some m ∧ m ≠ 0) := by
  rw [loopStep] at h
  split at h
  · split at h
    · rename_i maxLoops heq
      split at h
      · simp at h
      · rename_i hml0
        split at h
        · simp only [Option.some.injEq, Prod.mk.injEq] at h
          obtain ⟨rfl, -, -, -⟩ := h
          exact Or.inr ⟨rfl, maxLoops, heq, hml0⟩
        · simp only [Option.some.injEq, Prod.mk.injEq] at h
          obtain ⟨rfl, -, -, -⟩ := h
          exact Or.inl rfl
    · simp only [Option.some.injEq, Prod.mk.injEq] at h
      obtain ⟨rfl, -, -, -⟩ := h
      exact Or.inl rfl
  · simp only [Option.some.injEq, Prod.mk.injEq] at h
    obtain ⟨rfl, -, -, -⟩ := h
    exact Or.inl rfl

/-- Shape of a successful `update`: the loop budget is never modified, and
the result is either the untouched transition (non-running state, or a
missing start time) or a transition whose state is `Running`, except that a
finite loop budget may have driven it to `Complete`. -/
theorem update_shape [Interpolate T] (E : ℚ → ℚ) (tr tr' : Transition T)
    (now : ℚ) (v : Option T)
    (h : Transition.update E tr now = some (tr', v)) :
    tr'.loop_count = tr.loop_count ∧
    (tr' = tr ∨ (tr.state = TransitionState.Running ∧
       (tr'.state = TransitionState.Running ∨
        (tr'.state = TransitionState.Complete ∧ ∃ m, tr.loop_count = some m ∧ m ≠ 0)))) := by
  rw [Transition.update] at h
  by_cases hst : tr.state = TransitionState.Running
  · rw [if_pos hst] at h
    cases hstart : tr.start_time with
    | none =>
      rw [hstart] at h
      simp at h
      exact ⟨by rw [← h.1], Or.inl h.1.symm⟩
    | some start =>
      rw [hstart] at h
      dsimp only at h
      cases hls : loopStep tr now (max (now - start) 0 / tr.duration) with
      | none => rw [hls] at h; simp at h
      | some quad =>
        obtain ⟨st, stime, li, prog⟩ := quad
        rw [hls] at h
        dsimp only at h
        cases hip : tr.interpolate_at E
            (if tr.reverse_on_complete ∧ li % 2 = 1 then 1 - prog else prog) with
        | none => rw [hip] at h; simp at h
        | some w =>
          rw [hip] at h
          simp at h
          obtain ⟨h1, _⟩ := h
          subst h1
          refine ⟨rfl, Or.inr ⟨hst, ?_⟩⟩
          exact loopStep_state tr now _ st stime li prog hls
  · rw [if_neg hst] at h
    simp at h
    exact ⟨by rw [← h.1], Or.inl h.1.symm⟩

/-- An infinite-loop transition keeps `loop_count = none` and never enters
`Complete` across any sequence of `update`, `pause` and `resume` calls. -/
theorem applyOps_never_complete [Interpolate T] (E : ℚ → ℚ) :
    ∀ (ops : List TransOp) (tr tr' : Transition T),
      tr.loop_count = none → tr.state ≠ TransitionState.Complete →
      applyOps E tr ops = some tr' →
      tr'.loop_count = none ∧ tr'.state ≠ TransitionState.Complete := by
  intro ops
  induction ops with
  | nil =>
    intro tr tr' h1 h2 h3
    rw [applyOps] at h3
    cases h3
    exact ⟨h1, h2⟩
  | cons op rest ih =>
    intro tr tr' h1 h2 h3
    rw [applyOps] at h3
    cases hop : applyOp E tr op with
    | none => rw [hop] at h3; simp at h3
    | some tm =>
      rw [hop] at h3
      simp only [Option.some_bind] at h3
      have hinv : tm.loop_count = none ∧ tm.state ≠ TransitionState.Complete := by
        cases op with
        | update now =>
          rw [applyOp] at hop
          rw [Option.map_eq_some'] at hop
          obtain ⟨⟨tu, v⟩, hu, htm⟩ := hop
          cases htm
          have := update_shape E tr tu now v hu
          refine ⟨this.1.trans h1, ?_⟩
          rcases this.2 with heq | ⟨_, hrun | ⟨_, m, hm, _⟩⟩
          · rw [heq]; exact h2
          · rw [hrun]; simp
          · rw [h1] at hm; cases hm
        | pause =>
          rw [applyOp] at hop
          cases hop
          rw [Transition.pause]
          split
          · exact ⟨h1, by simp⟩
          · exact ⟨h1, h2⟩
        | resume =>
          rw [applyOp] at hop
          cases hop
          rw [Transition.resume]
          split
          · exact ⟨h1, by simp⟩
          · exact ⟨h1, h2⟩
      exact ih tm tr' hinv.1 hinv.2 h3

/-- A started pulse transition updated after a full duration has elapsed
rolls over: the reference instant is reset to `now`, progress restarts at
`0`, the cached value is the first keyframe's value `lo`, and the state
stays `Running`. -/
theorem pulse_rollover (E : ℚ → ℚ) (d lo hi t0 now : ℚ)
    (hd : 0 < d) (hroll : d ≤ now - t0) :
    ∃ tr', Transition.update E ((TransitionPresets.pulse d lo hi).start t0) now
        = some (tr', some lo) ∧ tr'.is_running = true ∧ tr'.start_time = some now := by
  have hmax : max (now - t0) 0 = now - t0 := max_eq_left (le_trans hd.le hroll)
  have hp : (1:ℚ) ≤ (now - t0) / d := by
    rw [le_div_iff₀ hd]; linarith
  refine ⟨{ ((TransitionPresets.pulse d lo hi).start t0) with
            state := TransitionState.Running, start_time := some now,
            current_loop := 0, current_value := some lo }, ?_, rfl, rfl⟩
  simp [Transition.update, TransitionPresets.pulse, Transition.with_loop, Transition.new,
        Transition.start, loopStep, Transition.interpolate_at, scanIndices,
        Keyframe.new, Keyframe.with_easing, clamp01, hmax, hp]

/-- The loop-handling block never panics when the loop budget is `none` or
a finite budget of at least one loop. -/
theorem loopStep_isSome (tr : Transition T) (now p : ℚ)
    (h : tr.loop_count = none ∨ ∃ n, tr.loop_count = some n ∧ 1 ≤ n) :
    (loopStep tr now p).isSome := by
  rw [loopStep]
  split
  · rcases h with h | ⟨n, hn, hn1⟩
    · rw [h]; rfl
    · rw [hn]
      have : ¬ n = 0 := by omega
      simp only [this, if_false]
      split <;> rfl
  · rfl

/-- With a non-empty keyframe list and a well-formed loop budget, `update`
never panics. -/
theorem update_isSome [Interpolate T] (E : ℚ → ℚ) (tr : Transition T) (now : ℚ)
    (hkf : tr.keyframes ≠ [])
    (hlc : tr.loop_count = none ∨ ∃ n, tr.loop_count = some n ∧ 1 ≤ n) :
    (Transition.update E tr now).isSome := by
  rw [Transition.update]
  split
  · cases hstart : tr.start_time with
    | none => rfl
    | some start =>
      dsimp only
      obtain ⟨quad, hquad⟩ := Option.isSome_iff_exists.1
        (loopStep_isSome tr now (max (now - start) 0 / tr.duration) hlc)
      obtain ⟨st, stime, li, prog⟩ := quad
      rw [hquad]
      dsimp only
      obtain ⟨w, hw⟩ := Option.isSome_iff_exists.1
        (interpolate_at_isSome E tr
          (if tr.reverse_on_complete ∧ li % 2 = 1 then 1 - prog else prog) hkf)
      rw [hw]
      rfl
  · rfl

/-- When a running transition with loop budget `some 0` reaches a full
duration, the `max_loops - 1` subtraction underflows and `update` panics. -/
theorem update_loop_zero_none [Interpolate T] (E : ℚ → ℚ) (tr : Transition T)
    (now s : ℚ) (hst : tr.state = TransitionState.Running)
    (hstart : tr.start_time = some s) (hlc : tr.loop_count = some 0)
    (hd : 0 < tr.duration) (hroll : tr.duration ≤ now - s) :
    Transition.update E tr now = none := by
  rw [Transition.update, if_pos hst, hstart]
  dsimp only
  have hmax : max (now - s) 0 = now - s := max_eq_left (le_trans hd.le hroll)
  have hp : (1:ℚ) ≤ (now - s) / tr.duration := by
    rw [le_div_iff₀ hd]; linarith
  have hls : loopStep tr now (max (now - s) 0 / tr.duration) = none := by
    rw [loopStep, hmax, if_pos hp, hlc]; rfl
  rw [hls]

/-- What the `retain_mut` pass of `update_all` keeps: a successful pass is
the plain update of every entry followed by a filter on `is_running`. -/
theorem retainUpdate_filter [Interpolate T] (E : ℚ → ℚ) :
    ∀ (l : List (String × Transition T)) (now : ℚ) (l' : List (String × Transition T)),
      retainUpdate E l now = some l' →
      ∃ lu, updateEntries E l now = some lu ∧
        l' = lu.filter (fun e => e.2.is_running) := by
  intro l
  induction l with
  | nil =>
    intro now l' h
    rw [retainUpdate] at h
    cases h
    exact ⟨[], rfl, rfl⟩
  | cons hd tl ih =>
    intro now l' h
    obtain ⟨n, tr⟩ := hd
    rw [retainUpdate] at h
    cases hu : Transition.update E tr now with
    | none => rw [hu] at h; cases h
    | some pr =>
      obtain ⟨tr', v⟩ := pr
      rw [hu] at h
      dsimp only at h
      cases hrest : retainUpdate E tl now with
      | none => rw [hrest] at h; cases h
      | some rest' =>
        rw [hrest] at h
        dsimp only at h
        obtain ⟨lu, hlu, hfil⟩ := ih now rest' hrest
        refine ⟨(n, tr') :: lu, ?_, ?_⟩
        · rw [updateEntries, hu, hlu]
        · rw [List.filter_cons]
          by_cases hrun : tr'.is_running
          · rw [if_pos hrun] at h
            cases h
            simp [hrun, hfil]
          · rw [if_neg hrun] at h
            cases h
            simp only [Bool.not_eq_true] at hrun
            simp [hrun, hfil]

/-- A single-keyframe transition with an empty keyframe list, for concrete
evaluations. -/
def emptyTransition : Transition ℚ := Transition.new 1 []

/-- A one-keyframe transition for concrete evaluations. -/
def singleKeyframeTransition : Transition ℚ := Transition.new 1 [Keyframe.new 0.25 7]

/-- The started demo transition after an `update` at time `0`. -/
def demoStarted0 : Transition ℚ :=
  { keyframes := [⟨0, 0, Easing.Linear⟩, ⟨1, 100, Easing.EaseInOut⟩]
    duration := 1
    start_time := some 0
    state := TransitionState.Running
    current_value := some 0
    loop_count := none
    current_loop := 0
    reverse_on_complete := false }

/-- The started `pulse 2 0.8 1.2` transition after a `pause` call. -/
def pulsePaused : Transition ℚ :=
  { keyframes := [⟨0, 0.8, Easing.EaseInOut⟩, ⟨0.5, 1.2, Easing.EaseInOut⟩,
                  ⟨1, 0.8, Easing.EaseInOut⟩]
    duration := 2
    start_time := some 0
    state := TransitionState.Paused
    current_value := none
    loop_count := none
    current_loop := 0
    reverse_on_complete := false }

/-- C1: the specification requires `Transition::new` (and the `from_to`
shorthand) to reject a zero or negative duration at construction time.  The
code performs no such check: construction with duration `0` succeeds,
producing an ordinary `Idle` transition that stores the zero duration,
which a later `update` uses as the divisor of its progress computation (in
`f32` arithmetic a non-finite progress value). -/
theorem transition_new_accepts_zero_duration :
    (Transition.new 0 [Keyframe.new 0 (0:ℚ)]).duration = 0 ∧
    (Transition.new 0 [Keyframe.new 0 (0:ℚ)]).state = TransitionState.Idle ∧
    (Transition.from_to 0 (0:ℚ) 1 Easing.EaseOut).duration = 0 ∧
    (Transition.from_to 0 (0:ℚ) 1 Easing.EaseOut).state = TransitionState.Idle :=
  ⟨rfl, rfl, rfl, rfl⟩

/-- C2 counterexample: `update_all` does not retain every entry whose state
differs from `Complete`.  A registry whose single entry was reset to `Idle`
(through `reset(name)`) loses that entry on the next `update_all`, because
retention is decided by `is_running()` after the update, not by
completion. -/
theorem update_all_removes_idle_entry_cex :
    ((((TransitionManager.new : TransitionManager ℚ).add "a" demoTransition 0).reset
        "a").transitions.map (fun e => e.2.state) = [TransitionState.Idle]) ∧
    TransitionManager.update_all elasticZero
        (((TransitionManager.new : TransitionManager ℚ).add "a" demoTransition 0).reset "a") 1
      = some ⟨[]⟩ := by
  decide

/-- C2 amended: `update_all` updates every entry in order and retains
exactly the entries whose transition reports `is_running()` (state
`Running`) after its update; a finite transition that has reached
`Complete` is removed, an infinite-loop transition that is `Running` stays
`Running` and is never removed, but entries in `Idle` or `Paused` state are
also removed. -/
theorem update_all_retains_exactly_running :
    (∀ {T : Type} [Interpolate T] (E : ℚ → ℚ) (m m' : TransitionManager T) (now : ℚ),
        TransitionManager.update_all E m now = some m' →
        ∃ lu, updateEntries E m.transitions now = some lu ∧
          m'.transitions = lu.filter (fun e => e.2.is_running)) ∧
    (∀ {T : Type} [Interpolate T] (E : ℚ → ℚ) (tr tr' : Transition T) (now : ℚ)
        (v : Option T),
        tr.loop_count = none → tr.state = TransitionState.Running →
        Transition.update E tr now = some (tr', v) → tr'.is_running = true) := by
  constructor
  · intro T inst E m m' now h
    rw [TransitionManager.update_all, Option.map_eq_some'] at h
    obtain ⟨l', hl, hm⟩ := h
    obtain ⟨lu, hlu, hfil⟩ := retainUpdate_filter E m.transitions now l' hl
    exact ⟨lu, hlu, by rw [← hm, hfil]⟩
  · intro T inst E tr tr' now v h1 h2 h
    have hs := update_shape E tr tr' now v h
    rcases hs.2 with heq | ⟨-, hrun | ⟨-, m, hm, -⟩⟩
    · rw [heq]; simp [Transition.is_running, h2]
    · simp [Transition.is_running, hrun]
    · rw [h1] at hm; cases hm

/-- Concrete instantiation of the amended C2 theorem: the reset registry
from the counterexample, and the started demo transition staying running
through an update. -/
theorem update_all_retains_exactly_running_witness :
    (∃ lu, updateEntries elasticZero
        (((TransitionManager.new : TransitionManager ℚ).add "a" demoTransition 0).reset
          "a").transitions 1 = some lu ∧
        (⟨[]⟩ : TransitionManager ℚ).transitions
          = lu.filter (fun e => e.2.is_running)) ∧
    demoStarted0.is_running = true :=
  ⟨update_all_retains_exactly_running.1 elasticZero
      (((TransitionManager.new : TransitionManager ℚ).add "a" demoTransition 0).reset "a")
      ⟨[]⟩ 1 (by decide),
   update_all_retains_exactly_running.2 elasticZero (demoTransition.start 0)
      demoStarted0 0 (some 0) rfl rfl (by
        norm_num [Transition.update, demoTransition, demoStarted0, Transition.new,
          Transition.start, loopStep, Transition.interpolate_at, scanIndices,
          Keyframe.new, Keyframe.with_easing, clamp01])⟩

/-- C3 counterexample: `add` does not overwrite an existing entry with the
same name; two `add` calls under the name "a" leave two entries whose key
is "a" in the registry. -/
theorem add_duplicate_name_cex :
    (((TransitionManager.new : TransitionManager ℚ).add "a" demoTransition 0).add "a"
        demoTransition 0).transitions.countP (fun e => e.1 == "a") = 2 := by
  decide

/-- C3 amended: `add(name, transition)` starts the transition and appends
the entry at the back of the registry's vector; it performs no lookup,
overwrite or deduplication, so a name may occur in any number of
entries. -/
theorem add_appends_entry {T : Type} (m : TransitionManager T) (name : String)
    (tr : Transition T) (now : ℚ) :
    (m.add name tr now).transitions = m.transitions ++ [(name, tr.start now)] ∧
    (tr.start now).state = TransitionState.Running ∧
    (tr.start now).start_time = some now :=
  ⟨rfl, rfl, rfl⟩

/-- C4: interpolating a transition whose keyframe list is empty — directly,
through `value_at`, or through a running `update` — panics (embedded as
`none`) instead of returning a degenerate value. -/
theorem empty_keyframes_interpolation_fails {T : Type} [Interpolate T] (E : ℚ → ℚ)
    (tr : Transition T) (p now s : ℚ) (hkf : tr.keyframes = []) :
    tr.interpolate_at E p = none ∧ tr.value_at E p = none ∧
    (tr.state = TransitionState.Running → tr.start_time = some s →
      Transition.update E tr now = none) := by
  have hip : ∀ q : ℚ, tr.interpolate_at E q = none := by
    intro q
    rw [Transition.interpolate_at, hkf]
  refine ⟨hip p, ?_, ?_⟩
  · rw [Transition.value_at]
    exact hip _
  · intro hst hstart
    rw [Transition.update, if_pos hst, hstart]
    dsimp only
    cases hls : loopStep tr now (max (now - s) 0 / tr.duration) with
    | none => rfl
    | some quad =>
      obtain ⟨st, stime, li, prog⟩ := quad
      dsimp only
      rw [hip _]

/-- Concrete instantiation of C4 on a started empty-keyframe transition. -/
theorem empty_keyframes_interpolation_fails_witness :
    (emptyTransition.start 0).interpolate_at elasticZero 0.5 = none ∧
    Transition.update elasticZero (emptyTransition.start 0) 1 = none :=
  ⟨(empty_keyframes_interpolation_fails elasticZero (emptyTransition.start 0)
      0.5 1 0 rfl).1,
   (empty_keyframes_interpolation_fails elasticZero (emptyTransition.start 0)
      0.5 1 0 rfl).2.2 rfl rfl⟩

/-- C5: every easing maps progress `0` to `0` and progress `1` to `1`
exactly; in particular `Elastic` returns its input unchanged at exactly
`t = 0` and `t = 1` (its transcendental interior `E` is not evaluated
there, so this holds for every `E`). -/
theorem easing_apply_boundary_values (E : ℚ → ℚ) (e : Easing) :
    Easing.apply E e 0 = 0 ∧ Easing.apply E e 1 = 1 := by
  cases e <;> constructor <;> norm_num [Easing.apply, clamp01]

/-- C6: a transition whose timeline holds exactly one keyframe returns that
keyframe's value verbatim from `value_at`, for every progress. -/
theorem single_keyframe_value_at {T : Type} [Interpolate T] (E : ℚ → ℚ)
    (tr : Transition T) (kf : Keyframe T) (p : ℚ) (h : tr.keyframes = [kf]) :
    tr.value_at E p = some kf.value := by
  rw [Transition.value_at, Transition.interpolate_at, h]

/-- Concrete instantiation of C6. -/
theorem single_keyframe_value_at_witness :
    singleKeyframeTransition.value_at elasticZero 0.9 = some 7 :=
  single_keyframe_value_at elasticZero singleKeyframeTransition
    (Keyframe.new 0.25 7) 0.9 rfl

/-- C7: a zero-width segment (start and end keyframe sharing one offset)
yields local progress `0` instead of a division by zero, and timeline
lookup is total on every non-empty keyframe list (no panic, no
out-of-bounds index). -/
theorem timeline_lookup_total_zero_width :
    (∀ startOff p : ℚ, localProgress startOff startOff p = 0) ∧
    (∀ {T : Type} [Interpolate T] (E : ℚ → ℚ) (tr : Transition T) (p : ℚ),
        tr.keyframes ≠ [] → (tr.interpolate_at E p).isSome) :=
  ⟨fun startOff p => by simp [localProgress],
   fun E tr p h => interpolate_at_isSome E tr p h⟩

/-- Concrete instantiation of C7. -/
theorem timeline_lookup_total_zero_width_witness :
    localProgress 0.5 0.5 0.25 = 0 ∧
    (demoTransition.interpolate_at elasticZero 0.5).isSome :=
  ⟨timeline_lookup_total_zero_width.1 0.5 0.25,
   timeline_lookup_total_zero_width.2 elasticZero demoTransition 0.5 (by decide)⟩

/-- C8: when the state is not `Running` (`Idle`, `Paused` or `Complete`),
`update` returns the cached current value and leaves the transition
entirely unchanged. -/
theorem update_noop_when_not_running {T : Type} [Interpolate T] (E : ℚ → ℚ)
    (tr : Transition T) (now : ℚ) (h : tr.state ≠ TransitionState.Running) :
    Transition.update E tr now = some (tr, tr.current_value) := by
  rw [Transition.update, if_neg h]

/-- Concrete instantiation of C8 on the idle demo transition. -/
theorem update_noop_when_not_running_witness :
    Transition.update elasticZero demoTransition 5 = some (demoTransition, none) :=
  update_noop_when_not_running elasticZero demoTransition 5 (by decide)

/-- C9: a transition with `loop_count = none` never reaches `Complete`
under any sequence of `update`, `pause` and `resume` calls; and a started
pulse preset updated after a full duration rolls over — the reference
instant is reset to `now`, the value restarts from progress `0` at the
minimum keyframe value, and `is_running()` remains true. -/
theorem infinite_loop_never_complete :
    (∀ {T : Type} [Interpolate T] (E : ℚ → ℚ) (tr tr' : Transition T)
        (ops : List TransOp),
        tr.loop_count = none → tr.state ≠ TransitionState.Complete →
        applyOps E tr ops = some tr' → tr'.state ≠ TransitionState.Complete) ∧
    (∀ (E : ℚ → ℚ) (d lo hi t0 now : ℚ), 0 < d → d ≤ now - t0 →
        ∃ tr', Transition.update E ((TransitionPresets.pulse d lo hi).start t0) now
            = some (tr', some lo) ∧ tr'.is_running = true ∧ tr'.start_time = some now) :=
  ⟨fun E tr tr' ops h1 h2 h3 => (applyOps_never_complete E ops tr tr' h1 h2 h3).2,
   fun E d lo hi t0 now hd hroll => pulse_rollover E d lo hi t0 now hd hroll⟩

/-- Concrete instantiation of C9: the started `pulse 2 0.8 1.2` after a
pause, and its rollover update at time `3`. -/
theorem infinite_loop_never_complete_witness :
    pulsePaused.state ≠ TransitionState.Complete ∧
    (∃ tr', Transition.update elasticZero ((TransitionPresets.pulse 2 0.8 1.2).start 0) 3
        = some (tr', some 0.8) ∧ tr'.is_running = true ∧ tr'.start_time = some 3) :=
  ⟨infinite_loop_never_complete.1 elasticZero
      ((TransitionPresets.pulse 2 0.8 1.2).start 0) pulsePaused [TransOp.pause]
      rfl (by decide)
      (by
        norm_num [applyOps, applyOp, TransitionPresets.pulse, Transition.with_loop,
          Transition.new, Transition.start, Transition.pause, pulsePaused,
          Keyframe.new, Keyframe.with_easing, clamp01]),
   infinite_loop_never_complete.2 elasticZero 2 0.8 1.2 0 3 (by norm_num) (by norm_num)⟩

/-- C10: a running transition configured with `with_loop(Some(0))` panics
in `update` once elapsed time reaches the duration, because the loop check
computes `max_loops - 1` on the `usize` value `0` (an underflow, a panic in
a debug build); with `loop_count` equal to `None` or `Some(n)`, `n ≥ 1`,
and a non-empty keyframe list, `update` never panics. -/
theorem with_loop_zero_underflow :
    (∀ {T : Type} [Interpolate T] (E : ℚ → ℚ) (tr : Transition T) (now s : ℚ),
        tr.state = TransitionState.Running → tr.start_time = some s →
        tr.loop_count = some 0 → 0 < tr.duration → tr.duration ≤ now - s →
        Transition.update E tr now = none) ∧
    (∀ {T : Type} [Interpolate T] (E : ℚ → ℚ) (tr : Transition T) (now : ℚ),
        tr.keyframes ≠ [] →
        (tr.loop_count = none ∨ ∃ n, tr.loop_count = some n ∧ 1 ≤ n) →
        (Transition.update E tr now).isSome) :=
  ⟨fun E tr now s h1 h2 h3 h4 h5 => update_loop_zero_none E tr now s h1 h2 h3 h4 h5,
   fun E tr now h1 h2 => update_isSome E tr now h1 h2⟩

/-- Concrete instantiation of C10: the demo transition with a loop budget
of zero panics at the rollover update; with its default infinite budget the
same update succeeds. -/
theorem with_loop_zero_underflow_witness :
    Transition.update elasticZero ((demoTransition.with_loop (some 0)).start 0) 2 = none ∧
    (Transition.update elasticZero (demoTransition.start 0) 2).isSome :=
  ⟨with_loop_zero_underflow.1 elasticZero ((demoTransition.with_loop (some 0)).start 0)
      2 0 rfl rfl rfl (by decide)
      (by norm_num [demoTransition, Transition.new, Transition.with_loop, Transition.start]),
   with_loop_zero_underflow.2 elasticZero (demoTransition.start 0) 2
      (by decide) (Or.inl rfl)⟩

/-- Concrete instantiation of the amended C3 theorem. -/
theorem add_appends_entry_witness :
    ((TransitionManager.new : TransitionManager ℚ).add "a" demoTransition 0).transitions
      = [] ++ [("a", demoTransition.start 0)] ∧
    (demoTransition.start 0).state = TransitionState.Running ∧
    (demoTransition.start 0).start_time = some 0 :=
  add_appends_entry (TransitionManager.new : TransitionManager ℚ) "a" demoTransition 0

/-- Concrete instantiation of C5 at the Bounce easing. -/
theorem easing_apply_boundary_values_witness :
    Easing.apply elasticZero Easing.Bounce 0 = 0 ∧
    Easing.apply elasticZero Easing.Bounce 1 = 1 :=
  easing_apply_boundary_values elasticZero Easing.Bounce
